import Mathlib

/-!
Shallow embedding of the candidate discovery and selection core of this pip
repository: src/pip/index.py, src/pip/found.py, src/pip/finder_funcs.py,
src/pip/finder/installed.py, src/pip/finder/findlinks.py.

Python strings are modelled as lists of characters (`Str`).  Modules of the
repository that are not under src/ (pip/link.py, pip/wheel.py, pip/utils,
pip/pep425tags, the vendored pkg_resources) are modelled from the spec, each
with a doc comment saying so.
-/

abbrev Str := List Char

/-- Convert a Lean string literal into the character-list model of Python str. -/
def str (s : String) : Str := s.toList

/-- Python str.lower for the ASCII data handled by the finder. -/
def lowerStr (s : Str) : Str := s.map Char.toLower

/-- Membership test of a contiguous substring, i.e. Python `needle in hay`. -/
def strInfix (needle : Str) : Str → Bool
  | [] => needle.isPrefixOf []
  | c :: rest => needle.isPrefixOf (c :: rest) || strInfix needle rest

/-- Python str.split(sep) on a single separator character. -/
def splitOnChar (sep : Char) : Str → List Str
  | [] => [[]]
  | c :: rest =>
    let r := splitOnChar sep rest
    if c = sep then [] :: r
    else
      match r with
      | t :: ts => (c :: t) :: ts
      | [] => [[c]]

/-- Whether an Except value is a success. -/
def isOkE : Except ε α → Bool
  | .ok _ => true
  | .error _ => false

/-- posixpath-style trailing-slash strip used by Link.filename. -/
def rstripSlashes (p : Str) : Str := (p.reverse.dropWhile (· = '/')).reverse

/-- posixpath.basename after stripping trailing slashes (Link.filename). -/
def urlBasename (p : Str) : Str := ((rstripSlashes p).reverse.takeWhile (· ≠ '/')).reverse

/-- Modelled from the spec: pip/link.py is not under src/.  Link.splitext splits
the filename at its final dot (os.path.splitext semantics: a leading run of dots
is not an extension).  The double-extension `.tar.*` case is handled by the
caller, _link_package_versions in src/pip/finder_funcs.py lines 86-89. -/
def splitextPlain (f : Str) : Str × Str :=
  match f.reverse.findIdx? (· = '.') with
  | none => (f, [])
  | some k =>
    let i := f.length - 1 - k
    if (f.take i).all (· = '.') then (f, []) else (f.take i, f.drop i)

/-- Modelled from the spec (section 3): pip/link.py is not under src/.  A web
Link: the URL's path component (after the stdlib urlparse collaborator), the
optional `#egg=` fragment, the internal / verifiable / trusted tri-states, the
netloc of the page the link was found on (comes_from, used only for the
pypi-binary-wheel rule), and the deprecated-regex marker set on scraped
rel-links. -/
structure WebLink where
  path : Str
  eggFragment : Option Str := none
  internal : Option Bool := none
  verifiable : Option Bool := none
  trusted : Option Bool := none
  comesFromNetloc : Option Str := none
  deprecatedRegex : Bool := false
  deriving DecidableEq, Repr

/-- Modelled from the spec (section 3): the INSTALLED sentinel Link compares
equal only to itself; every other Link is a web link. -/
inductive Link where
  | installed : Link
  | web : WebLink → Link
  deriving DecidableEq, Repr

def WebLink.filename (w : WebLink) : Str := urlBasename w.path

def WebLink.ext (w : WebLink) : Str := (splitextPlain w.filename).2

def Link.filename : Link → Str
  | .installed => []
  | .web w => w.filename

def Link.ext : Link → Str
  | .installed => []
  | .web w => w.ext

def Link.verifiableFlag : Link → Option Bool
  | .installed => none
  | .web w => w.verifiable

def Link.deprecatedFlag : Link → Bool
  | .installed => false
  | .web w => w.deprecatedRegex

/-- Kind of a character for version tokenization: digit, letter, separator. -/
def verCharKind (c : Char) : Nat := if c.isDigit then 0 else if c.isAlpha then 1 else 2

/-- Tokenize a version string into maximal digit runs and letter runs; all other
characters only separate tokens. -/
def tokenizeVer : Str → List Str
  | [] => []
  | [c] => if verCharKind c = 2 then [] else [[c]]
  | c :: d :: rest =>
    let ts := tokenizeVer (d :: rest)
    if verCharKind c = 2 then ts
    else if verCharKind c = verCharKind d then
      match ts with
      | [] => [[c]]
      | t :: ts2 => (c :: t) :: ts2
    else [c] :: ts

/-- Decimal value of a digit run. -/
def natVal (t : Str) : Nat := t.foldl (fun a c => a * 10 + (c.toNat - 48)) 0

/-- Marker value of a letter run: pre-release and dev markers sort below any
numeric component (which is ≥ 0). -/
def markerVal (t : Str) : Int :=
  if t = str "dev" then -4
  else if t = str "a" ∨ t = str "alpha" then -3
  else if t = str "b" ∨ t = str "beta" then -2
  else if t = str "c" ∨ t = str "rc" ∨ t = str "pre" ∨ t = str "preview" then -1
  else -5

def tokenVal (t : Str) : Int :=
  match t with
  | [] => 0
  | c :: _ => if c.isDigit then (natVal t : Int) else markerVal t

/-- Modelled from the spec (section 4.C): pkg_resources.parse_version is the
vendored collaborator, not under src/.  A version parses to an opaque totally
ordered value; we model it as the list of numeric and marker tokens of the
lowercased string, compared lexicographically. -/
def parseVersion (s : Str) : List Int := (tokenizeVer (lowerStr s)).map tokenVal

/-- Modelled from the spec (section 4.C): pip.utils.is_prerelease is not under
src/; a version is a pre-release iff its parsed form exposes a pre or dev
marker, i.e. iff a negative marker token occurs. -/
def isPrerelease (s : Str) : Bool := (parseVersion s).any (· < 0)

def isNameSep (c : Char) : Bool := c == '-' || c == '.' || c == '_'

/-- Collapse each run of name separators into a single dash. -/
def squashSeps : Str → Str
  | [] => []
  | c :: rest =>
    let tail := squashSeps rest
    if isNameSep c then
      match tail with
      | '-' :: _ => tail
      | _ => '-' :: tail
    else c :: tail

/-- Modelled from the spec (section 9): pip.utils.normalize_name is not under
src/; names are normalized by lowercasing and replacing `_` and runs of `-._`
with a single `-`. -/
def normalize_name (s : Str) : Str := squashSeps (lowerStr s)

abbrev Tag := Str × Str × Str

def wheel_ext : Str := str ".whl"

def startsWithDigit : Str → Bool
  | [] => false
  | c :: _ => c.isDigit

/-- Modelled from the spec (section 4.A): pip/wheel.py is not under src/.  A
parsed wheel filename {distribution}-{version}(-{build})?-{python}-{abi}-
{platform}.whl with dash-free, dot-separated tag fields. -/
structure Wheel where
  name : Str
  version : Str
  pyversions : List Str
  abis : List Str
  plats : List Str
  deriving DecidableEq, Repr

/-- Modelled from the spec (section 4.A): wheel filename parsing; version and
build must start with a digit; a malformed name is InvalidWheelFilename,
returned as none. -/
def Wheel.parse (filename : Str) : Option Wheel :=
  if (str ".whl").isSuffixOf filename then
    let base := filename.take (filename.length - 4)
    match splitOnChar '-' base with
    | [n, v, py, abi, plat] =>
      if n ≠ [] ∧ startsWithDigit v ∧ py ≠ [] ∧ abi ≠ [] ∧ plat ≠ [] then
        some ⟨n, v, splitOnChar '.' py, splitOnChar '.' abi, splitOnChar '.' plat⟩
      else none
    | [n, v, build, py, abi, plat] =>
      if n ≠ [] ∧ startsWithDigit v ∧ startsWithDigit build
          ∧ py ≠ [] ∧ abi ≠ [] ∧ plat ≠ [] then
        some ⟨n, v, splitOnChar '.' py, splitOnChar '.' abi, splitOnChar '.' plat⟩
      else none
    | _ => none
  else none

/-- All (python, abi, platform) combinations of a wheel's tag fields. -/
def Wheel.fileTags (w : Wheel) : List Tag :=
  w.pyversions.flatMap fun py => w.abis.flatMap fun abi => w.plats.map fun plat => (py, abi, plat)

/-- Modelled from the spec (section 4.B): a wheel is supported iff one of its
file tags appears in the given supported-tags list. -/
def Wheel.supported (w : Wheel) (tags : List Tag) : Bool :=
  w.fileTags.any fun t => tags.contains t

/-- Modelled from the spec (section 4.B): the smallest index in the
supported-tags list of any of the wheel's file tags. -/
def Wheel.supportIndexMin (w : Wheel) (tags : List Tag) : Nat :=
  tags.findIdx fun t => w.fileTags.contains t

/-- FoundVersion from src/pip/found.py: a (version, link) pair produced by a
finder. -/
structure FoundVersion where
  version : Str
  link : Link
  deriving DecidableEq, Repr

def FoundVersion.parsed_version (fv : FoundVersion) : List Int := parseVersion fv.version

def FoundVersion.currently_installed (fv : FoundVersion) : Bool := fv.link == Link.installed

def FoundVersion.prerelease (fv : FoundVersion) : Bool := isPrerelease fv.version

/-- The two exceptions that FoundVersion._sort_key can raise. -/
inductive SortErr where
  | invalidWheelFilename
  | unsupportedWheel
  deriving DecidableEq, Repr

/-- FoundVersion._sort_key from src/pip/found.py lines 41-69, with its possible
exceptions made explicit: the Wheel constructor can raise InvalidWheelFilename
and an unsupported wheel raises UnsupportedWheel.  The pep425tags global
supported_tags is passed as the `tags` parameter. -/
def FoundVersion.sort_key (tags : List Tag) (fv : FoundVersion) :
    Except SortErr (List Int × Int) :=
  let support_num : Int := tags.length
  if fv.currently_installed then .ok (fv.parsed_version, 1)
  else if fv.link.ext = wheel_ext then
    match Wheel.parse fv.link.filename with
    | none => .error .invalidWheelFilename
    | some wheel =>
      if ¬ wheel.supported tags then .error .unsupportedWheel
      else .ok (fv.parsed_version, -(wheel.supportIndexMin tags : Int))
  else .ok (fv.parsed_version, -support_num)

/-- Totalized sort key, used only on lists on which every key succeeds. -/
def FoundVersion.sort_key_total (tags : List Tag) (fv : FoundVersion) : List Int × Int :=
  match fv.sort_key tags with
  | .ok k => k
  | .error _ => ([], 0)

/-- Python list (tuple-component) comparison on parsed versions. -/
def intListLe : List Int → List Int → Bool
  | [], _ => true
  | _ :: _, [] => false
  | a :: as, b :: bs => if a < b then true else if b < a then false else intListLe as bs

/-- Python tuple comparison of (parsed_version, priority) sort keys. -/
def sortKeyLe (x y : List Int × Int) : Bool :=
  if x.1 = y.1 then decide (x.2 ≤ y.2) else intListLe x.1 y.1

/-- Stable insertion: x occurs later in the input than the already-sorted
elements, so it goes after every element strictly preceding it. -/
def stableInsert (le : α → α → Bool) (x : α) : List α → List α
  | [] => [x]
  | y :: ys => if le y x && ! le x y then y :: stableInsert le x ys else x :: y :: ys

/-- Stable sort by a boolean comparison; equal elements keep input order. -/
def stableSortBy (le : α → α → Bool) : List α → List α
  | [] => []
  | x :: xs => stableInsert le x (stableSortBy le xs)

/-- CPython sorted(versions, key=key, reverse=True): stable and descending;
a precedes b iff key a > key b, or the keys are equal and a came first. -/
def pySortedDesc (key : β → List Int × Int) (xs : List β) : List β :=
  stableSortBy (fun a b => sortKeyLe (key b) (key a)) xs

/-- FoundVersion.sort from src/pip/found.py lines 28-39:
sorted(versions, key=cls._sort_key, reverse=True).  CPython computes every key
first (propagating any exception the key function raises), then sorts stably in
descending key order. -/
def FoundVersion.sort (tags : List Tag) (versions : List FoundVersion) :
    Except SortErr (List FoundVersion) :=
  match versions.mapM (FoundVersion.sort_key tags) with
  | .error e => .error e
  | .ok _ => .ok (pySortedDesc (FoundVersion.sort_key_total tags) versions)

/-- PackageFinder configuration (the fields of src/pip/index.py __init__ read
by the filter and the selector), together with the module globals of the
collaborators: pep425tags.supported_tags / supported_tags_noarch /
get_platform() and sys.version. -/
structure Ctx where
  use_wheel : Bool
  allow_external : List Str
  allow_unverified : List Str
  allow_all_external : Bool
  allow_all_prereleases : Bool
  supported_tags : List Tag
  supported_tags_noarch : List Tag
  platform : Str
  sysVersion : Str

/-- The mutable search-scoped state of the finder: logged_links (a set used to
emit each skip debug line at most once) and the two need_warn flags. -/
structure SearchState where
  logged_links : List WebLink
  need_warn_external : Bool
  need_warn_unverified : Bool
  deriving DecidableEq, Repr

/-- `if link not in self.logged_links: logger.debug(...); logged_links.add(link)`. -/
def logOnce (st : SearchState) (w : WebLink) : SearchState :=
  if w ∈ st.logged_links then st else { st with logged_links := w :: st.logged_links }

/-- PackageFinder.__init__ from src/pip/index.py lines 51-100: the
allow_external and allow_unverified names are normalized, and everything that
is allowed unverified is also allowed external (set union, modelled as list
append, membership-equivalent).  The collaborator globals are threaded through
unchanged. -/
def PackageFinder.init (use_wheel : Bool) (allow_external allow_unverified : List Str)
    (allow_all_external allow_all_prereleases : Bool)
    (tags tags_noarch : List Tag) (platform sysVersion : Str) : Ctx :=
  let ae := allow_external.map normalize_name
  let au := allow_unverified.map normalize_name
  { use_wheel := use_wheel
    allow_external := ae ++ au
    allow_unverified := au
    allow_all_external := allow_all_external
    allow_all_prereleases := allow_all_prereleases
    supported_tags := tags
    supported_tags_noarch := tags_noarch
    platform := platform
    sysVersion := sysVersion }

/-- _known_extensions from src/pip/finder_funcs.py lines 57-61. -/
def known_extensions (use_wheel : Bool) : List Str :=
  if use_wheel then
    [str ".tar.gz", str ".tar.bz2", str ".tar", str ".tgz", str ".zip", wheel_ext]
  else
    [str ".tar.gz", str ".tar.bz2", str ".tar", str ".tgz", str ".zip"]

/-- Character class [a-z0-9_.] of _egg_info_re under re.I. -/
def eggC1 (c : Char) : Bool := c.isAlpha || c.isDigit || c == '_' || c == '.'

/-- Character class [a-z0-9_.-] of _egg_info_re under re.I. -/
def eggC2 (c : Char) : Bool := eggC1 c || c == '-'

/-- One attempt of _egg_info_re = ([a-z0-9_.]+)-([a-z0-9_.-]+) (re.I) at a
fixed start position, both groups greedy; returns group 0. -/
def eggMatchAt (s : Str) : Option Str :=
  let g1 := s.takeWhile eggC1
  if g1 = [] then none
  else
    match s.drop g1.length with
    | '-' :: rest =>
      let g2 := rest.takeWhile eggC2
      if g2 = [] then none else some (g1 ++ '-' :: g2)
    | _ => none

/-- re.search of _egg_info_re (src/pip/finder_funcs.py line 37): leftmost match. -/
def eggSearch : Str → Option Str
  | [] => none
  | c :: rest =>
    match eggMatchAt (c :: rest) with
    | some m => some m
    | none => eggSearch rest

/-- _egg_info_matches from src/pip/finder_funcs.py lines 41-54 (the link
argument of the source is only used for logging). -/
def egg_info_matches (egg_info search_name : Str) : Option Str :=
  match eggSearch egg_info with
  | none => none
  | some g0 =>
    let name := (lowerStr g0).map fun c => if c = '_' then '-' else c
    let look_for := lowerStr search_name ++ ['-']
    if look_for.isPrefixOf name then some (g0.drop look_for.length) else none

/-- The shapes of _py_version_re's capture group ([123]\.?[0-9]?). -/
def pyGroupOk : Str → Bool
  | [d] => d == '1' || d == '2' || d == '3'
  | [d, x] => (d == '1' || d == '2' || d == '3') && (x == '.' || x.isDigit)
  | [d, x, y] => (d == '1' || d == '2' || d == '3') && x == '.' && y.isDigit
  | _ => false

/-- Try to match -py([123]\.?[0-9]?)$ as the length-n suffix of v; returns
(v[:match.start()], group 1). -/
def pyTryAt (v : Str) (n : Nat) : Option (Str × Str) :=
  if n ≤ v.length then
    let tail := v.drop (v.length - n)
    if tail.take 3 = str "-py" ∧ pyGroupOk (tail.drop 3) then
      some (v.take (v.length - n), tail.drop 3)
    else none
  else none

/-- re.search of _py_version_re = -py([123]\.?[0-9]?)$ (src/pip/finder_funcs.py
line 38).  The pattern is end-anchored, so the leftmost match is the longest
matching suffix: total length 6, 5 or 4. -/
def pyVersionSearch (v : Str) : Option (Str × Str) :=
  match pyTryAt v 6 with
  | some r => some r
  | none =>
    match pyTryAt v 5 with
    | some r => some r
    | none => pyTryAt v 4

/-- The python-version-suffix step of _link_package_versions
(src/pip/finder_funcs.py lines 188-196): the matched suffix is stripped from
the version, and the link is skipped (none) when the captured tag differs from
sys.version[:3]. -/
def pySuffixCheck (sysVersion v : Str) : Option Str :=
  match pyVersionSearch v with
  | none => some v
  | some (front, grp) => if grp ≠ sysVersion.take 3 then none else some front

/-- normalize_name(search_name).lower() as written in the filter. -/
def normSearch (search_name : Str) : Str := lowerStr (normalize_name search_name)

/-- The binary-wheels-from-PyPI guard of _link_package_versions
(src/pip/finder_funcs.py lines 133-143): platform is neither Windows nor macOS
nor cli, and the link's comes_from page is hosted on pypi.python.org. -/
def pypiBinaryHack (ctx : Ctx) (w : WebLink) : Bool :=
  (!(str "win").isPrefixOf ctx.platform
      && !(str "macosx").isPrefixOf ctx.platform
      && !(ctx.platform == str "cli"))
    && (match w.comesFromNetloc with
        | some netloc => (str "pypi.python.org").isSuffixOf netloc
        | none => false)

/-- The external-hosting check, the verifiability check, the python-version
check and the final emission of _link_package_versions
(src/pip/finder_funcs.py lines 163-198). -/
def finalChecks (ctx : Ctx) (w : WebLink) (search_name : Str) (st : SearchState)
    (version : Str) : List FoundVersion × SearchState :=
  if w.internal = some false
      ∧ normSearch search_name ∉ ctx.allow_external
      ∧ ¬ ctx.allow_all_external then
    ([], { st with need_warn_external := true })
  else if w.verifiable = some false
      ∧ normSearch search_name ∉ ctx.allow_unverified then
    ([], { st with need_warn_unverified := true })
  else
    match pySuffixCheck ctx.sysVersion version with
    | none => ([], st)
    | some v => ([⟨v, Link.web w⟩], st)

/-- Version resolution of _link_package_versions (src/pip/finder_funcs.py lines
153-161): `if not version:` (None or empty) falls back to the sdist/egg
matcher, and `if version is None:` skips the link. -/
def resolveVersion (ctx : Ctx) (w : WebLink) (search_name : Str) (st : SearchState)
    (egg_info : Str) (version : Option Str) : List FoundVersion × SearchState :=
  let v1 := if version.getD [] = [] then egg_info_matches egg_info search_name else version
  match v1 with
  | none => ([], st)
  | some ver => finalChecks ctx w search_name st ver

/-- _link_package_versions from src/pip/finder_funcs.py lines 64-198.  The
finder `config` and the shared mutable `state` of the source are the Ctx and
SearchState parameters. -/
def link_package_versions (ctx : Ctx) (w : WebLink) (search_name : Str)
    (st : SearchState) : List FoundVersion × SearchState :=
  match w.eggFragment with
  | some egg => resolveVersion ctx w search_name st egg none
  | none =>
    let p := splitextPlain w.filename
    if p.2 = [] then ([], logOnce st w)
    else
      let egg_info := if (str ".tar").isSuffixOf p.1 then p.1.take (p.1.length - 4) else p.1
      let ext := if (str ".tar").isSuffixOf p.1 then str ".tar" ++ p.2 else p.2
      if ext ∉ known_extensions ctx.use_wheel then ([], logOnce st w)
      else if strInfix (str "macosx10") w.path ∧ ext = str ".zip" then ([], logOnce st w)
      else if ext = wheel_ext then
        match Wheel.parse w.filename with
        | none => ([], st)
        | some wheel =>
          if lowerStr wheel.name ≠ lowerStr search_name then ([], st)
          else if ¬ wheel.supported ctx.supported_tags then ([], st)
          else if pypiBinaryHack ctx w ∧ ¬ wheel.supported ctx.supported_tags_noarch then
            ([], st)
          else resolveVersion ctx w search_name st egg_info (some wheel.version)
      else resolveVersion ctx w search_name st egg_info none

/-- The warnings logged by find_requirement (models only their emission). -/
inductive Warning where
  | externalIgnored
  | unverifiedIgnored
  | insecureSelection
  | deprecatedDiscovery
  deriving DecidableEq, Repr

/-- The exceptions that can escape find_requirement, plus the AttributeError of
src/pip/index.py line 340 and the sort-key exceptions it propagates. -/
inductive FindError where
  | noDownloads
  | noMatchingVersion
  | bestVersionAlreadyInstalled
  | attributeError
  | invalidWheelSort
  | unsupportedWheelSort
  deriving DecidableEq, Repr

def sortErrToFind : SortErr → FindError
  | .invalidWheelFilename => .invalidWheelSort
  | .unsupportedWheel => .unsupportedWheelSort

/-- The Requirement fields read by the selector: name, the optional installed
record's version (satisfied_by), the per-requirement prereleases flag, and the
specifier-membership test `version in req.req` (pip/req is a collaborator, so
the specifier semantics stay abstract). -/
structure Requirement where
  name : Str
  satisfied_by : Option Str
  prereleases : Bool
  specMem : Str → Bool

/-- InstalledFinder.found from src/pip/finder/installed.py. -/
def installedFound (req : Requirement) : List FoundVersion :=
  match req.satisfied_by with
  | none => []
  | some v => [⟨v, Link.installed⟩]

/-- The keep-condition of the applicable_versions narrowing loop. -/
def keepPred (ctx : Ctx) (req : Requirement) (fv : FoundVersion) : Bool :=
  req.specMem fv.version
    && (!(fv.prerelease && !(ctx.allow_all_prereleases || req.prereleases))
        || fv.currently_installed)

/-- The applicable_versions narrowing loop of find_requirement
(src/pip/index.py lines 311-333). -/
def applicableLoop (ctx : Ctx) (req : Requirement) : List FoundVersion → List FoundVersion
  | [] => []
  | fv :: rest =>
    if ¬ req.specMem fv.version then applicableLoop ctx req rest
    else if fv.prerelease && !(ctx.allow_all_prereleases || req.prereleases) then
      if ¬ fv.currently_installed then applicableLoop ctx req rest
      else fv :: applicableLoop ctx req rest
    else fv :: applicableLoop ctx req rest

/-- The warnings appended before raising DistributionNotFound
(src/pip/index.py lines 280-293 and 366-377): external first, then unverified,
each iff its need_warn flag was set. -/
def warnList (st : SearchState) : List Warning :=
  (if st.need_warn_external then [Warning.externalIgnored] else [])
    ++ (if st.need_warn_unverified then [Warning.unverifiedIgnored] else [])

/-- find_requirement after the final sort (src/pip/index.py lines 335-419).
The source line `if applicable_versions.currently_installed:` (line 340) looks
up an attribute on a plain list and raises AttributeError; that exception is
modelled explicitly. -/
def selectionStage (upgrade : Bool) (st : SearchState) (appSorted : List FoundVersion) :
    Except FindError (Option Link) × List Warning :=
  if ¬ upgrade ∧ appSorted.any (·.currently_installed) then (.error .attributeError, [])
  else
    match appSorted with
    | [] => (.error .noMatchingVersion, warnList st)
    | top :: _ =>
      if top.currently_installed then (.error .bestVersionAlreadyInstalled, [])
      else
        (.ok (some top.link),
          (if top.link.verifiableFlag = some false then [Warning.insecureSelection] else [])
            ++ (if top.link.deprecatedFlag then [Warning.deprecatedDiscovery] else []))

/-- find_requirement from src/pip/index.py lines 271-419, taking the candidate
pools already produced by the finders and the filter (found_versions =
find_links pool, page_versions, dependency_versions, file_versions) and the
search state they left, exactly as the source consumes them at line 271. -/
def find_requirement (ctx : Ctx) (req : Requirement) (upgrade : Bool)
    (found_versions page_versions dependency_versions file_versions : List FoundVersion)
    (st : SearchState) : Except FindError (Option Link) × List Warning :=
  if found_versions = [] ∧ page_versions = [] ∧ dependency_versions = []
      ∧ file_versions = [] then
    (.error .noDownloads, warnList st)
  else
    let installed_version := installedFound req
    match FoundVersion.sort ctx.supported_tags file_versions with
    | .error e => (.error (sortErrToFind e), [])
    | .ok file_sorted =>
      let all_versions := installed_version ++ file_sorted ++ found_versions
        ++ page_versions ++ dependency_versions
      match FoundVersion.sort ctx.supported_tags (applicableLoop ctx req all_versions) with
      | .error e => (.error (sortErrToFind e), [])
      | .ok appSorted => selectionStage upgrade st appSorted

/-- Characters kept verbatim by clean_link: the class [a-z0-9$&+,/:;=?@.#%_\\|-]
of _clean_re (src/pip/index.py line 717) under re.I. -/
def cleanAllowed (c : Char) : Bool :=
  c.isAlpha || c.isDigit
    || c == '$' || c == '&' || c == '+' || c == ',' || c == '/' || c == ':' || c == ';'
    || c == '=' || c == '?' || c == '@' || c == '.' || c == '#' || c == '%' || c == '_'
    || c == '\\' || c == '|' || c == '-'

/-- Lowercase hexadecimal digit. -/
def hexDigitChar (n : Nat) : Char := if n < 10 then Char.ofNat (48 + n) else Char.ofNat (87 + n)

/-- Hex digits of n, most significant first, no leading zeros (empty for 0);
fuel-structured so it computes by kernel reduction. -/
def hexDigitsAux : Nat → Nat → Str
  | 0, _ => []
  | fuel + 1, n =>
    if n = 0 then [] else hexDigitsAux fuel (n / 16) ++ [hexDigitChar (n % 16)]

/-- Lowercase hex representation of n; character code points are below 16^6, so
fuel 8 is exact on every input clean_link produces. -/
def hexRepr (n : Nat) : Str := if n = 0 then ['0'] else hexDigitsAux 8 n

/-- Python '%2x' % n: lowercase hex, padded on the left with a space to width 2. -/
def fmt2x (n : Nat) : Str :=
  let ds := hexRepr n
  if ds.length = 1 then ' ' :: ds else ds

/-- HTMLPage.clean_link from src/pip/index.py lines 717-724: every character
outside the allowed class is replaced by '%%%2x' % ord(c). -/
def clean_link (url : Str) : Str :=
  url.flatMap fun c => if cleanAllowed c then [c] else '%' :: fmt2x c.toNat

/-! Concrete instances used by the claim-level theorems, witnesses and
counterexamples. -/

/-- An empty search state, as at the start of a find_requirement call. -/
def emptyState : SearchState := ⟨[], false, false⟩

/-- A plain CPython 2.7 linux finder configuration. -/
def ctxPlain : Ctx :=
  { use_wheel := true
    allow_external := []
    allow_unverified := []
    allow_all_external := false
    allow_all_prereleases := false
    supported_tags := [(str "py2", str "none", str "any")]
    supported_tags_noarch := [(str "py2", str "none", str "any")]
    platform := str "linux_x86_64"
    sysVersion := str "2.7.6 (default, Mar 22 2014, 22:59:56)" }

/-- A requirement on foo with no version constraint, satisfied by an installed
foo 1.0. -/
def reqInstalled : Requirement :=
  { name := str "foo"
    satisfied_by := some (str "1.0")
    prereleases := false
    specMem := fun _ => true }

/-- A link to an sdist archive foo-1.0.tar.gz. -/
def sdistLink : WebLink := { path := str "/pkgs/foo-1.0.tar.gz" }

def sdistFv : FoundVersion := ⟨str "1.0", Link.web sdistLink⟩

def installedFv : FoundVersion := ⟨str "1.0", Link.installed⟩

/-- A wheel link whose filename carries an unsupported python tag (py9) but
which also carries an `#egg=foo-1.0` fragment. -/
def eggWheelLink : WebLink :=
  { path := str "/f/foo-1.0-py9-none-any.whl", eggFragment := some (str "foo-1.0") }

/-- A wheel link supported by ctxPlain's tags. -/
def wheelLink : WebLink := { path := str "/f/foo-1.0-py2-none-any.whl" }

/-- A macosx10 zip link carrying an `#egg=foo-1.0` fragment. -/
def eggMacLink : WebLink :=
  { path := str "/dl/foo-1.0-macosx10.6.zip", eggFragment := some (str "foo-1.0") }

/-- A macosx10 zip link without an egg fragment. -/
def plainMacLink : WebLink := { path := str "/dl/foo-1.0-macosx10.6.zip" }

example : splitextPlain (str "foo-1.0.tar.gz") = (str "foo-1.0.tar", str ".gz") := by decide
example : splitextPlain (str ".zip") = (str ".zip", []) := by decide
example : urlBasename (str "/simple/foo/foo-1.0.tar.gz") = str "foo-1.0.tar.gz" := by decide
example : parseVersion (str "1.0") = [1, 0] := by decide
example : isPrerelease (str "2.0a1") = true := by decide
example : isPrerelease (str "1.0") = false := by decide
example : normalize_name (str "Foo__Bar.baz") = str "foo-bar-baz" := by decide
example : (Wheel.parse (str "foo-1.0-py3-none-any.whl")).isSome = true := by decide

/-! Claim C1.  src/pip/index.py line 340 reads
`if applicable_versions.currently_installed:` where applicable_versions is the
plain list returned by FoundVersion.sort, so whenever the branch guarding it is
taken (upgrade false and some applicable candidate currently installed) the
call raises AttributeError instead of returning None. -/

/-- C1: with upgrade=false and an installed candidate among the applicable
versions, find_requirement raises AttributeError (src/pip/index.py line 340
looks up .currently_installed on a plain list) instead of returning the
documented null "already satisfied" signal.  Concrete failing run: requirement
foo without constraint, installed version 1.0, file pool containing
foo-1.0.tar.gz. -/
theorem find_requirement_attribute_error :
    installedFv ∈ applicableLoop ctxPlain reqInstalled (installedFound reqInstalled ++ [sdistFv])
      ∧ find_requirement ctxPlain reqInstalled false [] [] [] [sdistFv] emptyState
          = (.error .attributeError, []) := by
  exact ⟨by decide, rfl⟩

/-! Claim C2.  FoundVersion.sort (src/pip/found.py) has no access to the
finder's use_wheel flag: the secondary priority (installed > wheel > sdist) is
applied unconditionally, contradicting the method's own docstring
"If not finding wheels, then sorted by version only." -/

/-- C2: FoundVersion.sort applies the installed/wheel/sdist secondary priority
whether or not wheel support is enabled (the classmethod takes no finder
configuration at all), so two equal-version candidates [sdist, INSTALLED] are
reordered to [INSTALLED, sdist] instead of keeping input order as the
version-only key of the docstring would. -/
theorem sort_secondary_key_unconditional :
    FoundVersion.sort [(str "py2", str "none", str "any")] [sdistFv, installedFv]
      = .ok [installedFv, sdistFv] := rfl

/-! Claim C8: the python-version suffix check. -/

/-- A successful pyTryAt decomposes the version string as
front ++ "-py" ++ group. -/
theorem pyTryAt_decomp {v : Str} {n : Nat} {front grp : Str}
    (h : pyTryAt v n = some (front, grp)) : v = front ++ str "-py" ++ grp := by
  simp only [pyTryAt] at h
  split at h
  · split at h
    · rename_i hle hcond
      simp only [Option.some.injEq, Prod.mk.injEq] at h
      obtain ⟨hf, hg⟩ := h
      have hsplit : v.drop (v.length - n)
          = str "-py" ++ (v.drop (v.length - n)).drop 3 := by
        conv_lhs => rw [← List.take_append_drop 3 (v.drop (v.length - n))]
        rw [hcond.1]
      rw [← hf, ← hg, List.append_assoc, ← hsplit]
      exact (List.take_append_drop _ v).symm
    · exact absurd h (by simp)
  · exact absurd h (by simp)

/-- Claim C8: in the link filter's python-version-suffix step, if the computed
version string ends in a -py suffix matching the trailing pattern
-py([123]\.?[0-9]?)$, the suffix is stripped from the version (the match
decomposes the version as front ++ "-py" ++ group) and the link is skipped iff
the captured tag differs from sys.version[:3], the first three characters of
the interpreter version string; without a match the version passes unchanged. -/
theorem py_suffix_check_spec (sysVersion v : Str) :
    (pyVersionSearch v = none → pySuffixCheck sysVersion v = some v)
      ∧ ∀ front grp, pyVersionSearch v = some (front, grp) →
          v = front ++ str "-py" ++ grp
            ∧ (pySuffixCheck sysVersion v = none ↔ grp ≠ sysVersion.take 3)
            ∧ (grp = sysVersion.take 3 → pySuffixCheck sysVersion v = some front) := by
  constructor
  · intro h
    simp [pySuffixCheck, h]
  · intro front grp h
    have hdec : v = front ++ str "-py" ++ grp := by
      simp only [pyVersionSearch] at h
      split at h
      · rename_i r h6
        injection h with h'
        exact pyTryAt_decomp (h' ▸ h6)
      · split at h
        · rename_i r h5
          injection h with h'
          exact pyTryAt_decomp (h' ▸ h5)
        · exact pyTryAt_decomp h
    refine ⟨hdec, ?_, ?_⟩
    · simp only [pySuffixCheck, h]
      by_cases hg : grp = sysVersion.take 3 <;> simp [hg]
    · intro hg
      simp [pySuffixCheck, h, hg]

/-- Claim C8 witness: at version "1.0-py2.7" the suffix decomposes as
"1.0" ++ "-py" ++ "2.7"; a 2.7 interpreter keeps version "1.0", a 3.4
interpreter skips the link. -/
theorem py_suffix_check_spec_witness :
    pySuffixCheck (str "2.7.6 (default, Mar 22 2014, 22:59:56)") (str "1.0-py2.7")
        = some (str "1.0")
      ∧ pySuffixCheck (str "3.4.0 (default)") (str "1.0-py2.7") = none := by
  have h1 := (py_suffix_check_spec (str "2.7.6 (default, Mar 22 2014, 22:59:56)")
      (str "1.0-py2.7")).2 (str "1.0") (str "2.7") (by decide)
  have h2 := (py_suffix_check_spec (str "3.4.0 (default)") (str "1.0-py2.7")).2
      (str "1.0") (str "2.7") (by decide)
  exact ⟨h1.2.2 (by decide), h2.2.1.mpr (by decide)⟩

/-! Claim C9: clean_link idempotence. -/

theorem cleanAllowed_hexDigitChar : ∀ m, m < 16 → cleanAllowed (hexDigitChar m) = true := by
  decide

theorem hexDigitsAux_allowed (fuel : Nat) :
    ∀ n, ∀ c ∈ hexDigitsAux fuel n, cleanAllowed c = true := by
  induction fuel with
  | zero =>
    intro n c hc
    exact absurd hc (List.not_mem_nil c)
  | succ f ih =>
    intro n c hc
    simp only [hexDigitsAux] at hc
    by_cases hn : n = 0
    · simp [hn] at hc
    · rw [if_neg hn] at hc
      rcases List.mem_append.mp hc with h | h
      · exact ih _ c h
      · have hm : c = hexDigitChar (n % 16) := by simpa using h
        subst hm
        exact cleanAllowed_hexDigitChar _ (Nat.mod_lt _ (by omega))

theorem hexDigitsAux_ne_nil (fuel n : Nat) (hf : 1 ≤ fuel) (hn : 1 ≤ n) :
    hexDigitsAux fuel n ≠ [] := by
  match fuel, hf with
  | f + 1, _ =>
    have h0 : ¬ n = 0 := by omega
    simp [hexDigitsAux, h0]

theorem hexDigitsAux_len2 (fuel n : Nat) (hf : 2 ≤ fuel) (hn : 16 ≤ n) :
    2 ≤ (hexDigitsAux fuel n).length := by
  match fuel, hf with
  | f + 1, _ =>
    have h0 : ¬ n = 0 := by omega
    have hq : 1 ≤ n / 16 := (Nat.one_le_div_iff (by omega)).mpr hn
    have hne := hexDigitsAux_ne_nil f (n / 16) (by omega) hq
    have : 1 ≤ (hexDigitsAux f (n / 16)).length := by
      cases hx : hexDigitsAux f (n / 16) with
      | nil => exact absurd hx hne
      | cons a l => simp
    simp only [hexDigitsAux, if_neg h0, List.length_append, List.length_cons,
      List.length_nil]
    omega

theorem fmt2x_allowed (n : Nat) (hn : 16 ≤ n) : ∀ c ∈ fmt2x n, cleanAllowed c = true := by
  intro c hc
  have h0 : ¬ n = 0 := by omega
  have hlen := hexDigitsAux_len2 8 n (by omega) hn
  simp only [fmt2x, hexRepr, if_neg h0] at hc
  rw [if_neg (by omega)] at hc
  exact hexDigitsAux_allowed 8 n c hc

/-- Every character of clean_link's output is in the allowed class, provided no
input character is a disallowed control character with code point below 16. -/
theorem clean_link_chars (url : Str)
    (h : ∀ c ∈ url, cleanAllowed c = true ∨ 16 ≤ c.toNat) :
    ∀ c ∈ clean_link url, cleanAllowed c = true := by
  intro c hc
  simp only [clean_link, List.mem_flatMap] at hc
  obtain ⟨a, ha, hmem⟩ := hc
  by_cases hca : cleanAllowed a = true
  · rw [if_pos hca] at hmem
    simp at hmem
    exact hmem ▸ hca
  · rw [if_neg hca] at hmem
    have h16 : 16 ≤ a.toNat := (h a ha).resolve_left hca
    rcases List.mem_cons.mp hmem with h1 | h1
    · subst h1; rfl
    · exact fmt2x_allowed _ h16 c h1

/-- clean_link is the identity on strings of allowed characters. -/
theorem clean_link_fixed (url : Str) (h : ∀ c ∈ url, cleanAllowed c = true) :
    clean_link url = url := by
  induction url with
  | nil => rfl
  | cons c rest ih =>
    have hc := h c (by simp)
    have hrest := ih fun a ha => h a (List.mem_cons_of_mem _ ha)
    simp only [clean_link, List.flatMap_cons] at *
    rw [if_pos hc, hrest]
    rfl

/-- Claim C9 counterexample: clean_link is not idempotent on every string; for
the single character of code point 1, '%2x' pads with a space ("% 1"), and the
space is re-encoded by the second application ("%%201"). -/
theorem clean_link_not_idempotent :
    clean_link (clean_link [Char.ofNat 1]) ≠ clean_link [Char.ofNat 1] := by decide

/-- C9 amended: clean_link is idempotent on every URL string in which each
character is either in the allowed class or has code point at least 16 (so its
'%2x' encoding has two real hex digits and no space padding); on such strings
clean_link (clean_link url) = clean_link url. -/
theorem clean_link_idempotent (url : Str)
    (h : ∀ c ∈ url, cleanAllowed c = true ∨ 16 ≤ c.toNat) :
    clean_link (clean_link url) = clean_link url :=
  clean_link_fixed _ (clean_link_chars url h)

/-- Claim C9 witness: idempotence at a concrete URL containing a space. -/
theorem clean_link_idempotent_witness :
    clean_link (clean_link (str "http://example.com/a b#f=1"))
      = clean_link (str "http://example.com/a b#f=1") :=
  clean_link_idempotent (str "http://example.com/a b#f=1") (by decide)

/-! Claims C3, C4, C5: the selector pipeline. -/

/-- The narrowing loop is exactly an order-preserving filter by the keep
condition: no reordering happens between pool concatenation and the final
sort. -/
theorem applicableLoop_eq_filter (ctx : Ctx) (req : Requirement) (l : List FoundVersion) :
    applicableLoop ctx req l = l.filter (keepPred ctx req) := by
  induction l with
  | nil => rfl
  | cons fv rest ih =>
    simp only [applicableLoop, List.filter, keepPred, ih]
    cases hs : req.specMem fv.version <;>
      cases hp : fv.prerelease <;>
      cases ha : ctx.allow_all_prereleases <;>
      cases hr : req.prereleases <;>
      cases hc : fv.currently_installed <;>
      simp [hs, hp, ha, hr, hc]

/-- C3: when the pools are not all empty and the file pool sorts without
error, find_requirement is exactly: concatenate the pools in the fixed
priority order installed, file (already sorted), find_links, page, dependency;
narrow that concatenation with an order-preserving filter (no re-sorting
across pool boundaries); then apply the final composite-key sort and the
selection stage. -/
theorem find_requirement_pool_order (ctx : Ctx) (req : Requirement) (upgrade : Bool)
    (found_versions page_versions dependency_versions file_versions : List FoundVersion)
    (st : SearchState) (file_sorted : List FoundVersion)
    (hne : ¬(found_versions = [] ∧ page_versions = [] ∧ dependency_versions = []
        ∧ file_versions = []))
    (hfs : FoundVersion.sort ctx.supported_tags file_versions = .ok file_sorted) :
    find_requirement ctx req upgrade found_versions page_versions dependency_versions
        file_versions st
      = (match FoundVersion.sort ctx.supported_tags
            ((installedFound req ++ file_sorted ++ found_versions ++ page_versions
                ++ dependency_versions).filter (keepPred ctx req)) with
         | .error e => (.error (sortErrToFind e), [])
         | .ok appSorted => selectionStage upgrade st appSorted) := by
  unfold find_requirement
  rw [if_neg hne, hfs]
  simp only [applicableLoop_eq_filter]

/-- Claim C3 witness: the factored pipeline at a concrete input. -/
theorem find_requirement_pool_order_witness :
    find_requirement ctxPlain reqInstalled true [sdistFv] [] [] [] emptyState
      = (match FoundVersion.sort ctxPlain.supported_tags
            ((installedFound reqInstalled ++ [] ++ [sdistFv] ++ [] ++ []).filter
              (keepPred ctxPlain reqInstalled)) with
         | .error e => (.error (sortErrToFind e), [])
         | .ok appSorted => selectionStage true emptyState appSorted) :=
  find_requirement_pool_order ctxPlain reqInstalled true [sdistFv] [] [] [] emptyState []
    (by simp [sdistFv]) rfl

/-- C4: a FoundVersion of the concatenated pool is dropped by the
applicable_versions narrowing iff its version does not satisfy the
requirement's specifier, or it is a pre-release while neither
allow_all_prereleases nor the requirement's prereleases flag is set and it is
not the currently-installed candidate (an installed pre-release is never
dropped by the pre-release rule). -/
theorem applicable_drop_iff (ctx : Ctx) (req : Requirement) (l : List FoundVersion)
    (fv : FoundVersion) (hmem : fv ∈ l) :
    fv ∉ applicableLoop ctx req l
      ↔ (¬ req.specMem fv.version = true
          ∨ (fv.prerelease = true
              ∧ ¬ ctx.allow_all_prereleases = true ∧ ¬ req.prereleases = true
              ∧ ¬ fv.currently_installed = true)) := by
  rw [applicableLoop_eq_filter]
  simp only [List.mem_filter, hmem, true_and, keepPred]
  cases hs : req.specMem fv.version <;>
    cases hp : fv.prerelease <;>
    cases ha : ctx.allow_all_prereleases <;>
    cases hr : req.prereleases <;>
    cases hc : fv.currently_installed <;>
    simp

/-- Claim C4 witness: a pre-release 2.0a1 sdist is dropped under default
flags, while the same version is kept when carried by the installed sentinel. -/
theorem applicable_drop_iff_witness :
    (⟨str "2.0a1", Link.web sdistLink⟩ : FoundVersion)
        ∉ applicableLoop ctxPlain reqInstalled [⟨str "2.0a1", Link.web sdistLink⟩]
      ∧ ¬((⟨str "2.0a1", Link.installed⟩ : FoundVersion)
        ∉ applicableLoop ctxPlain reqInstalled [⟨str "2.0a1", Link.installed⟩]) := by
  constructor
  · exact (applicable_drop_iff ctxPlain reqInstalled _ _ (by simp)).mpr
      (Or.inr ⟨by decide, by decide, by decide, by decide⟩)
  · intro hno
    rcases (applicable_drop_iff ctxPlain reqInstalled _ _ (by simp)).mp hno with h | h
    · exact h (by decide)
    · exact h.2.2.2 (by decide)

/-- The selection stage never produces the "no downloads" failure. -/
theorem selectionStage_fst_ne_noDownloads (upgrade : Bool) (st : SearchState)
    (app : List FoundVersion) :
    (selectionStage upgrade st app).1 ≠ .error .noDownloads := by
  unfold selectionStage
  split
  · simp
  · split
    · simp
    · split <;> simp

/-- C5: find_requirement fails with the "no downloads" DistributionNotFound
exactly when the find_links, page, dependency and file pools are all empty
(whether or not an installed candidate exists, which is only consulted later),
and in that case the warnings emitted before the failure contain the external
warning iff need_warn_external was set and the unverified warning iff
need_warn_unverified was set (in that order). -/
theorem find_requirement_no_downloads (ctx : Ctx) (req : Requirement) (upgrade : Bool)
    (found_versions page_versions dependency_versions file_versions : List FoundVersion)
    (st : SearchState) :
    ((find_requirement ctx req upgrade found_versions page_versions dependency_versions
          file_versions st).1 = .error .noDownloads
        ↔ (found_versions = [] ∧ page_versions = [] ∧ dependency_versions = []
            ∧ file_versions = []))
      ∧ ((found_versions = [] ∧ page_versions = [] ∧ dependency_versions = []
            ∧ file_versions = []) →
          (find_requirement ctx req upgrade found_versions page_versions
              dependency_versions file_versions st).2 = warnList st
            ∧ (Warning.externalIgnored ∈ warnList st ↔ st.need_warn_external = true)
            ∧ (Warning.unverifiedIgnored ∈ warnList st ↔ st.need_warn_unverified = true)) := by
  refine ⟨⟨fun h => ?_, fun he => ?_⟩, fun he => ⟨?_, ?_, ?_⟩⟩
  · by_contra hne
    unfold find_requirement at h
    rw [if_neg hne] at h
    cases hsort : FoundVersion.sort ctx.supported_tags file_versions with
    | error e => rw [hsort] at h; cases e <;> simp [sortErrToFind] at h
    | ok fs =>
      rw [hsort] at h
      simp only at h
      cases hsort2 : FoundVersion.sort ctx.supported_tags
          (applicableLoop ctx req (installedFound req ++ fs ++ found_versions
            ++ page_versions ++ dependency_versions)) with
      | error e => rw [hsort2] at h; cases e <;> simp [sortErrToFind] at h
      | ok app =>
        rw [hsort2] at h
        exact selectionStage_fst_ne_noDownloads _ _ _ h
  · unfold find_requirement
    rw [if_pos he]
  · unfold find_requirement
    rw [if_pos he]
  · unfold warnList
    cases hx : st.need_warn_external <;> simp [hx]
  · unfold warnList
    cases hx : st.need_warn_unverified <;> cases hy : st.need_warn_external <;> simp [hx, hy]

/-- Claim C5 witness: with all four pools empty and both warn flags set, the
call fails with "no downloads" and emits both warnings even though an
installed candidate exists. -/
theorem find_requirement_no_downloads_witness :
    (find_requirement ctxPlain reqInstalled true [] [] [] [] ⟨[], true, true⟩).1
        = .error .noDownloads
      ∧ Warning.externalIgnored
          ∈ (find_requirement ctxPlain reqInstalled true [] [] [] [] ⟨[], true, true⟩).2
      ∧ Warning.unverifiedIgnored
          ∈ (find_requirement ctxPlain reqInstalled true [] [] [] [] ⟨[], true, true⟩).2 := by
  have h := find_requirement_no_downloads ctxPlain reqInstalled true [] [] [] []
    ⟨[], true, true⟩
  have h2 := h.2 ⟨rfl, rfl, rfl, rfl⟩
  refine ⟨h.1.mpr ⟨rfl, rfl, rfl, rfl⟩, ?_, ?_⟩
  · rw [h2.1]; exact h2.2.1.mpr rfl
  · rw [h2.1]; exact h2.2.2.mpr rfl

/-! Claims C6, C7, C10: the link filter. -/

/-- Every FoundVersion emitted by resolveVersion carries the filtered link. -/
theorem resolveVersion_mem_link (ctx : Ctx) (w : WebLink) (search : Str) (st : SearchState)
    (egg_info : Str) (version : Option Str) (fv : FoundVersion)
    (h : fv ∈ (resolveVersion ctx w search st egg_info version).1) :
    fv.link = Link.web w := by
  simp only [resolveVersion] at h
  split at h
  · simp at h
  · simp only [finalChecks] at h
    split at h
    · simp at h
    · split at h
      · simp at h
      · split at h
        · simp at h
        · simp at h
          subst h
          rfl

/-- C6 amended: for every FoundVersion emitted by the link filter
(_link_package_versions) from a link WITHOUT an egg fragment, under the same
finder configuration and supported-tags list, evaluating the composite sort
key raises no exception at all (in particular not UnsupportedWheel): the
filter's supported() check precedes emission.  The egg-fragment path skips the
extension checks, which is why the restriction is necessary. -/
theorem sort_key_ok_of_emitted (ctx : Ctx) (w : WebLink) (search : Str)
    (st : SearchState) (fv : FoundVersion) (hegg : w.eggFragment = none)
    (hmem : fv ∈ (link_package_versions ctx w search st).1) :
    isOkE (FoundVersion.sort_key ctx.supported_tags fv) = true := by
  unfold link_package_versions at hmem
  rw [hegg] at hmem
  simp only at hmem
  split at hmem
  · simp at hmem
  · rename_i hext_ne
    by_cases htar : (str ".tar").isSuffixOf (splitextPlain w.filename).1 = true
    · rw [if_pos htar, if_pos htar] at hmem
      split at hmem
      · simp at hmem
      · rename_i hkn
        split at hmem
        · simp at hmem
        · rename_i hmac
          split at hmem
          · rename_i hwl
            exfalso
            have hl := congrArg List.length hwl
            rw [List.length_append] at hl
            rw [show (str ".tar").length = 4 from rfl] at hl
            rw [show wheel_ext.length = 4 from rfl] at hl
            exact hext_ne (List.length_eq_zero.mp (by omega))
          · rename_i hwl
            have hlink := resolveVersion_mem_link ctx w search st _ _ fv hmem
            by_cases hpw : (splitextPlain w.filename).2 = wheel_ext
            · exfalso
              rw [hpw] at hkn
              cases hu : ctx.use_wheel <;> rw [hu] at hkn <;> exact hkn (by decide)
            · have hci : fv.currently_installed = false := by
                simp [FoundVersion.currently_installed, hlink]
              unfold FoundVersion.sort_key
              rw [if_neg (by simp [hci])]
              rw [if_neg (by rw [hlink]; exact hpw)]
              rfl
    · rw [if_neg htar, if_neg htar] at hmem
      split at hmem
      · simp at hmem
      · rename_i hkn
        split at hmem
        · simp at hmem
        · rename_i hmac
          split at hmem
          · rename_i hwl
            split at hmem
            · simp at hmem
            · rename_i wheel hparse
              split at hmem
              · simp at hmem
              · rename_i hname
                split at hmem
                · simp at hmem
                · rename_i hsupp
                  split at hmem
                  · simp at hmem
                  · have hlink := resolveVersion_mem_link ctx w search st _ _ fv hmem
                    have hci : fv.currently_installed = false := by
                      simp [FoundVersion.currently_installed, hlink]
                    have hsupp2 : wheel.supported ctx.supported_tags = true :=
                      not_not.mp hsupp
                    have hfn : fv.link.filename = w.filename := by rw [hlink]; rfl
                    unfold FoundVersion.sort_key
                    rw [if_neg (by simp [hci])]
                    rw [if_pos (show fv.link.ext = wheel_ext by rw [hlink]; exact hwl)]
                    simp only [hfn, hparse]
                    rw [if_neg (by simp [hsupp2])]
                    rfl
          · rename_i hwl
            have hlink := resolveVersion_mem_link ctx w search st _ _ fv hmem
            have hci : fv.currently_installed = false := by
              simp [FoundVersion.currently_installed, hlink]
            unfold FoundVersion.sort_key
            rw [if_neg (by simp [hci])]
            rw [if_neg (by rw [hlink]; exact hwl)]
            rfl

/-- Claim C6 counterexample: a link whose filename is a wheel unsupported on
this interpreter but which carries an `#egg=foo-1.0` fragment is emitted by
the link filter (the egg path skips every extension check), and the sort key
of the emitted FoundVersion raises UnsupportedWheel. -/
theorem sort_key_unsupported_reachable :
    (link_package_versions ctxPlain eggWheelLink (str "foo") emptyState).1
        = [⟨str "1.0", Link.web eggWheelLink⟩]
      ∧ FoundVersion.sort_key ctxPlain.supported_tags ⟨str "1.0", Link.web eggWheelLink⟩
          = .error .unsupportedWheel := ⟨rfl, rfl⟩

/-- Claim C6 witness: a supported wheel emitted through the non-egg path has a
successfully evaluated sort key. -/
theorem sort_key_ok_of_emitted_witness :
    isOkE (FoundVersion.sort_key ctxPlain.supported_tags
        ⟨str "1.0", Link.web wheelLink⟩) = true :=
  sort_key_ok_of_emitted ctxPlain wheelLink (str "foo") emptyState
    ⟨str "1.0", Link.web wheelLink⟩ rfl (by decide)

/-- C7 amended: a link WITHOUT an egg fragment whose path contains "macosx10"
and whose extension is ".zip" is always skipped by the link filter, whatever
the finder configuration (for a stem ending in ".tar" the composed ".tar.zip"
extension is rejected as an unknown archive format instead).  A link with an
egg fragment bypasses every extension check, which is why the restriction is
necessary. -/
theorem macosx_zip_skipped (ctx : Ctx) (w : WebLink) (search : Str) (st : SearchState)
    (hegg : w.eggFragment = none) (hmac : strInfix (str "macosx10") w.path = true)
    (hzip : w.ext = str ".zip") :
    (link_package_versions ctx w search st).1 = [] := by
  have hp2 : (splitextPlain w.filename).2 = str ".zip" := hzip
  unfold link_package_versions
  rw [hegg]
  simp only
  rw [hp2]
  rw [if_neg (by decide)]
  by_cases htar : (str ".tar").isSuffixOf (splitextPlain w.filename).1 = true
  · rw [if_pos htar, if_pos htar]
    cases hu : ctx.use_wheel <;> rw [if_pos (by decide)]
  · rw [if_neg htar, if_neg htar]
    have hin : ¬ (str ".zip" ∉ known_extensions ctx.use_wheel) := by
      cases hu : ctx.use_wheel <;> decide
    rw [if_neg hin]
    rw [if_pos ⟨hmac, rfl⟩]

/-- Claim C7 counterexample: a link whose path contains "macosx10" and whose
extension is ".zip" but which carries an `#egg=foo-1.0` fragment is NOT
skipped: the egg path of the filter bypasses the macosx10-zip exclusion and a
FoundVersion is emitted. -/
theorem macosx_zip_emitted_with_egg :
    strInfix (str "macosx10") eggMacLink.path = true
      ∧ eggMacLink.ext = str ".zip"
      ∧ (link_package_versions ctxPlain eggMacLink (str "foo") emptyState).1
          = [⟨str "1.0", Link.web eggMacLink⟩] := ⟨rfl, rfl, rfl⟩

/-- Claim C7 witness: the same macosx10 zip link without an egg fragment is
skipped. -/
theorem macosx_zip_skipped_witness :
    (link_package_versions ctxPlain plainMacLink (str "foo") emptyState).1 = [] :=
  macosx_zip_skipped ctxPlain plainMacLink (str "foo") emptyState rfl rfl rfl

/-- logged_links bookkeeping never touches the need_warn flags. -/
theorem logOnce_warn_external (st : SearchState) (w : WebLink) :
    (logOnce st w).need_warn_external = st.need_warn_external := by
  unfold logOnce
  split <;> rfl

/-- If the normalized search name is allowed external, the external-hosting
check of the filter's final stage never fires. -/
theorem finalChecks_warn_external (ctx : Ctx) (w : WebLink) (search : Str)
    (st : SearchState) (version : Str)
    (hext : normSearch search ∈ ctx.allow_external) :
    (finalChecks ctx w search st version).2.need_warn_external = st.need_warn_external := by
  unfold finalChecks
  split
  · rename_i hcond
    exact absurd hext hcond.2.1
  · split
    · rfl
    · split <;> rfl

theorem resolveVersion_warn_external (ctx : Ctx) (w : WebLink) (search : Str)
    (st : SearchState) (egg_info : Str) (version : Option Str)
    (hext : normSearch search ∈ ctx.allow_external) :
    (resolveVersion ctx w search st egg_info version).2.need_warn_external
      = st.need_warn_external := by
  simp only [resolveVersion]
  split
  · rfl
  · exact finalChecks_warn_external ctx w search st _ hext

theorem link_package_versions_warn_external (ctx : Ctx) (w : WebLink) (search : Str)
    (st : SearchState) (hext : normSearch search ∈ ctx.allow_external) :
    (link_package_versions ctx w search st).2.need_warn_external
      = st.need_warn_external := by
  unfold link_package_versions
  split
  · exact resolveVersion_warn_external ctx w search st _ _ hext
  · simp only
    split
    · exact logOnce_warn_external st w
    · split
      · split
        · exact logOnce_warn_external st w
        · split
          · exact logOnce_warn_external st w
          · split
            · split
              · rfl
              · split
                · rfl
                · split
                  · rfl
                  · split
                    · rfl
                    · exact resolveVersion_warn_external ctx w search st _ _ hext
            · exact resolveVersion_warn_external ctx w search st _ _ hext
      · split
        · exact logOnce_warn_external st w
        · split
          · exact logOnce_warn_external st w
          · split
            · split
              · rfl
              · split
                · rfl
                · split
                  · rfl
                  · split
                    · rfl
                    · exact resolveVersion_warn_external ctx w search st _ _ hext
            · exact resolveVersion_warn_external ctx w search st _ _ hext

/-- C10: after PackageFinder construction every normalized name of
allow_unverified is also in allow_external (the constructor adds the whole
unverified set to the external set, and no operation of the finder ever
removes from either set — the embedding's configuration is read-only, only the
SearchState mutates); consequently a search name allowed unverified can never
trip the external-hosting check of the link filter: need_warn_external is left
exactly as it was. -/
theorem allow_unverified_subset_external
    (use_wheel : Bool) (ae au : List Str) (aae aap : Bool)
    (tags tagsN : List Tag) (plat sysv : Str)
    (w : WebLink) (search : Str) (st : SearchState) :
    (∀ n ∈ (PackageFinder.init use_wheel ae au aae aap tags tagsN plat sysv).allow_unverified,
        n ∈ (PackageFinder.init use_wheel ae au aae aap tags tagsN plat sysv).allow_external)
      ∧ (normSearch search
            ∈ (PackageFinder.init use_wheel ae au aae aap tags tagsN plat sysv).allow_unverified →
          (link_package_versions (PackageFinder.init use_wheel ae au aae aap tags tagsN
              plat sysv) w search st).2.need_warn_external = st.need_warn_external) := by
  constructor
  · intro n hn
    simp only [PackageFinder.init] at hn ⊢
    exact List.mem_append.mpr (Or.inr hn)
  · intro hm
    apply link_package_versions_warn_external
    simp only [PackageFinder.init] at hm ⊢
    exact List.mem_append.mpr (Or.inr hm)

/-- Claim C10 witness: a name configured in allow_unverified (here "Foo",
normalized to "foo") is in allow_external of the constructed finder, and
filtering an explicitly-external link for it does not set need_warn_external. -/
theorem allow_unverified_subset_external_witness :
    normSearch (str "foo")
        ∈ (PackageFinder.init true [] [str "Foo"] false false [] []
            (str "linux_x86_64") (str "2.7.6")).allow_unverified
      ∧ (link_package_versions
            (PackageFinder.init true [] [str "Foo"] false false [] []
              (str "linux_x86_64") (str "2.7.6"))
            { path := str "/pkgs/foo-1.0.tar.gz", internal := some false }
            (str "foo") emptyState).2.need_warn_external = false := by
  constructor
  · decide
  · have h := (allow_unverified_subset_external true [] [str "Foo"] false false [] []
        (str "linux_x86_64") (str "2.7.6")
        { path := str "/pkgs/foo-1.0.tar.gz", internal := some false }
        (str "foo") emptyState).2 (by decide)
    exact h
